import Mathlib

/-!
Shallow embedding of the cacophoney-lib node core: the signable envelope
(src/obj/signables.rs), the message taxonomy (src/obj/message.rs), the
key triads (src/crypto/mod.rs) and the inbound-endpoint request handlers
(src/node/mod.rs).  External collaborators — serde JSON/CBOR decoding,
secp256k1 signature verification, the RNG and the wall clock — enter as
explicit parameters; everything else is translated from the source.
-/

deriving instance DecidableEq for Except

namespace Cacophoney

/-- Byte strings (Rust `Vec<u8>` / `[u8; N]`) as lists of naturals. -/
abbrev Bytes := List Nat

/-- `crypto::PublicKey`: 33-byte compressed secp256k1 point, kept opaque. -/
structure PublicKey where
  bytes : Bytes
deriving DecidableEq, Repr

/-- `crypto::Signature`: 64-byte signature, kept opaque. -/
structure Signature where
  bytes : Bytes
deriving DecidableEq, Repr

/-- `crypto::KeyTriad<T>`: public key, signature and a signed payload. -/
structure KeyTriad (T : Type) where
  public_key : PublicKey
  signature : Signature
  signed : T
deriving DecidableEq, Repr

/-- `KeyTriad::map`: replace the payload, keep key and signature. -/
def KeyTriad.map {T U : Type} (t : KeyTriad T) (f : T → U) : KeyTriad U :=
  { public_key := t.public_key, signature := t.signature, signed := f t.signed }

/-- `obj::SignedData`: wire bytes of a signed object, JSON or CBOR. -/
inductive SignedData where
  | Json (s : String)
  | Cbor (b : Bytes)
deriving DecidableEq, Repr

/-- `obj::SignMessageType`: discriminant of signable messages. -/
inductive SignMessageType where
  | Identify
deriving DecidableEq, Repr

/-- `obj::Signable<T>`: a message type discriminant plus a payload. -/
structure Signable (T : Type) where
  msg_type : SignMessageType
  obj : T
deriving DecidableEq, Repr

/-- `obj::CachedSigned<T>`: the decoded view next to the original wire bytes. -/
structure CachedSigned (T : Type) where
  signable : Signable T
  value : SignedData
deriving DecidableEq, Repr

/-- `obj::SALT_SIZE`: the size in bytes of the challenge nonce. -/
def SALT_SIZE : Nat := 16

/-- The salt array `[u8; SALT_SIZE]`: a byte list of length `SALT_SIZE`. -/
abbrev Salt := { b : Bytes // b.length = SALT_SIZE }

/-- `obj::IdentifyData`: challenge nonce and validity window (ms since epoch). -/
structure IdentifyData where
  salt : Salt
  start_time : Nat
  expire_time : Nat
deriving DecidableEq, Repr

/-- `obj::SignedConvertError`.  The serde error payloads are external, so the
`JsonError` and `CborError` constructors only record which decoder failed. -/
inductive SignedConvertError where
  | BothNone
  | JsonError
  | CborError
deriving DecidableEq, Repr

/-- `obj::Signed`: optional JSON and CBOR components of a signed object. -/
structure Signed where
  json : Option String
  cbor : Option Bytes
deriving DecidableEq, Repr

/-- `Signed::to_signable` (src/obj/signables.rs:80-91), parameterised by the
serde decoders: prefer the CBOR component, fall back to JSON, and fail with
`BothNone` when neither is present. -/
def Signed.to_signable {T : Type} (jsonDec : String → Option (Signable T))
    (cborDec : Bytes → Option (Signable T)) (s : Signed) :
    Except SignedConvertError (Signable T) :=
  match s.cbor with
  | some v =>
    match cborDec v with
    | some sg => .ok sg
    | none => .error .CborError
  | none =>
    match s.json with
    | some v =>
      match jsonDec v with
      | some sg => .ok sg
      | none => .error .JsonError
    | none => .error .BothNone

/-- `Signed::to_cached` (src/obj/signables.rs:68-79): decode via
`to_signable`, then cache the wire bytes, taking the CBOR component when it
is present and otherwise unwrapping the JSON component (the unwrap is
modelled by `Option.getD`; it is only reached when `to_signable` succeeded,
which forces the JSON component to be present in that branch). -/
def Signed.to_cached {T : Type} (jsonDec : String → Option (Signable T))
    (cborDec : Bytes → Option (Signable T)) (s : Signed) :
    Except SignedConvertError (CachedSigned T) :=
  match s.to_signable jsonDec cborDec with
  | .error e => .error e
  | .ok signable =>
    .ok { signable := signable,
          value := match s.cbor with
                   | some v => SignedData.Cbor v
                   | none => SignedData.Json (s.json.getD "") }

/-- The identify handler (src/node/mod.rs:390) decodes the received
`SignedData` payload into a `CachedSigned<IdentifyData>`: the wire content is
decoded with the decoder matching its encoding and the original wire bytes
are cached unchanged alongside the decoded view. -/
def SignedData.to_cached {T : Type} (jsonDec : String → Option (Signable T))
    (cborDec : Bytes → Option (Signable T)) (d : SignedData) :
    Except SignedConvertError (CachedSigned T) :=
  match d with
  | .Json s =>
    match jsonDec s with
    | some sg => .ok { signable := sg, value := SignedData.Json s }
    | none => .error .JsonError
  | .Cbor b =>
    match cborDec b with
    | some sg => .ok { signable := sg, value := SignedData.Cbor b }
    | none => .error .CborError

/-! ### Association lists

`scc::HashMap` and the per-endpoint maps are modelled as association lists.
`insertNew` mirrors `scc::HashMap::insert_async`, which fails (returning the
key/value pair) when the key is already present. -/

namespace Assoc

/-- Look up the value bound to a key, as `HashMap::get_async`. -/
def find? {K V : Type} [DecidableEq K] : List (K × V) → K → Option V
  | [], _ => none
  | (k', v) :: rest, k => if k' = k then some v else find? rest k

/-- `HashMap::insert_async`: fails (returns `none`) when the key exists. -/
def insertNew {K V : Type} [DecidableEq K] (l : List (K × V)) (k : K) (v : V) :
    Option (List (K × V)) :=
  match find? l k with
  | some _ => none
  | none => some (l ++ [(k, v)])

/-- `let _ = map.insert_async(..)`: insert, ignoring failure on a duplicate. -/
def insertIfAbsent {K V : Type} [DecidableEq K] (l : List (K × V)) (k : K) (v : V) :
    List (K × V) :=
  (insertNew l k v).getD l

/-- Rebind an existing key (used to write an updated endpoint back into the
world); a missing key leaves the list unchanged. -/
def set {K V : Type} [DecidableEq K] : List (K × V) → K → V → List (K × V)
  | [], _, _ => []
  | (k', v') :: rest, k, v => if k' = k then (k, v) :: rest else (k', v') :: set rest k v

/-- `HashMap::entry_async(k).or_default()` followed by a mutation of the
entry: apply `f` to the value bound to `k`, binding `dflt` first if absent. -/
def update {K V : Type} [DecidableEq K] (l : List (K × V)) (k : K) (f : V → V) (dflt : V) :
    List (K × V) :=
  match l with
  | [] => [(k, f dflt)]
  | (k', v) :: rest => if k' = k then (k, f v) :: rest else (k', v) :: update rest k f dflt

/-- `HashMap::remove_async`: drop the binding for `k`. -/
def erase {K V : Type} [DecidableEq K] : List (K × V) → K → List (K × V)
  | [], _ => []
  | (k', v) :: rest, k => if k' = k then rest else (k', v) :: erase rest k

end Assoc

/-- `HashSet::insert` on a set of endpoint handles (equality is by id). -/
def insertSet (l : List Nat) (x : Nat) : List Nat :=
  if x ∈ l then l else l ++ [x]

/-! ### Node data model (src/node/mod.rs) -/

/-- `node::ServerInfo`: the domain name of a server. -/
structure ServerInfo where
  domain : String
deriving DecidableEq, Repr

/-- `core::net::SocketAddr`, reduced to the parts the handlers read. -/
structure SocketAddr where
  ip : Nat
  port : Nat
deriving DecidableEq, Repr

/-- `node::EndpointInfo`: optional server info plus the remote address. -/
structure EndpointInfo where
  server_info : Option ServerInfo
  endpoint : SocketAddr
deriving DecidableEq, Repr

/-- `node::InboundEndpoint<C>` (mutable per-connection state).  The
`server_hdl: Option<Weak<ServerHandle>>` field is split into the per-endpoint
`has_server_hdl` flag (`Option::is_some`) and a world-level liveness flag for
the weak upgrade; the connection `conn: C` is left abstract. -/
structure InboundEndpoint where
  id : Nat
  has_server_hdl : Bool
  identify_data : Option IdentifyData
  public_keys : List PublicKey
  identities : List (PublicKey × KeyTriad (CachedSigned IdentifyData))
  info : EndpointInfo
deriving DecidableEq, Repr

/-- `node::ServerHandle<C>`: the shared registry.  Handles (`InboundHdl`,
i.e. `Arc<InboundEndpoint>`) are represented by endpoint ids, which is
faithful because `InboundEndpoint` equality and hashing are by `id`;
`connected_servers` keeps the (immutable) `EndpointInfo` next to the id since
the list-servers handler reads only that field. -/
structure ServerHandle where
  key_to_endpoint : List (PublicKey × Nat)
  connected_servers : List (Nat × EndpointInfo)
  notifications : List (PublicKey × List Nat)
deriving DecidableEq, Repr

/-- `ServerHandle::new`. -/
def ServerHandle.new : ServerHandle :=
  { key_to_endpoint := [], connected_servers := [], notifications := [] }

/-! ### Request, response and error types (src/obj/mod.rs, src/node/error.rs) -/

/-- `obj::IdentifyResp`: empty struct. -/
abbrev IdentifyResp := Unit

/-- `obj::KeysExistsReq`. -/
structure KeysExistsReq where
  keys : List PublicKey
  notify : Bool
deriving DecidableEq, Repr

/-- `obj::KeysExistsResp`. -/
structure KeysExistsResp where
  triads : List (KeyTriad SignedData)
deriving DecidableEq, Repr

/-- `obj::CommunicationReq`.  The source fields `from` and `to` are Lean
keywords and are rendered `from_key` and `to_key`. -/
structure CommunicationReq where
  from_key : PublicKey
  to_key : PublicKey
deriving DecidableEq, Repr

/-- `obj::ListConnectedServersReq`. -/
structure ListConnectedServersReq where
  max : Option Nat
deriving DecidableEq, Repr

/-- `obj::ConnectedServer`: projection of a connected server to ip and domain. -/
structure ConnectedServer where
  ip : Nat
  domain : String
deriving DecidableEq, Repr

/-- `obj::ListConnectedServersResp`. -/
structure ListConnectedServersResp where
  servers : List ConnectedServer
deriving DecidableEq, Repr

/-- `error::IdentifyReqError`. -/
inductive IdentifyReqError where
  | ServerHdlDropped
  | SignatureInvalid
  | IdentifyDataInvalid
  | Expired
  | AlreadyIdentified
  | ConvertErr (e : SignedConvertError)
deriving DecidableEq, Repr

/-- `error::KeysExistsReqError`. -/
inductive KeysExistsReqError where
  | NotServer
  | ServerHdlDropped
deriving DecidableEq, Repr

/-- `error::StreamOpenErrorType`. -/
inductive StreamOpenErrorType where
  | EndpointDeclined
deriving DecidableEq, Repr

/-- `error::CommunicationReqError`. -/
inductive CommunicationReqError where
  | NotServer
  | ServerHdlDropped
  | InvalidPublicKey
  | CannotFindKey
  | StreamOpenErr (e : StreamOpenErrorType)
deriving DecidableEq, Repr

/-- `error::ListConnectedServersReqError`. -/
inductive ListConnectedServersReqError where
  | NotServer
  | ServerHdlDropped
deriving DecidableEq, Repr

/-! ### External collaborators -/

/-- The external collaborators of the identify handler: the serde decoders
for `Signable<IdentifyData>` and secp256k1 signature verification
(`PublicKey::valid` of src/crypto/mod.rs, a function of the public key, the
signed wire bytes — which the handler hashes — and the signature). -/
structure CryptoEnv where
  jsonDec : String → Option (Signable IdentifyData)
  cborDec : Bytes → Option (Signable IdentifyData)
  valid : PublicKey → SignedData → Signature → Bool

/-! ### Request handlers (src/node/mod.rs)

Each handler is a pure function of the endpoint state, the shared registry
and the external collaborators.  `alive : Bool` models whether upgrading the
weak `server_hdl` reference succeeds. -/

/-- `Service<PreIdentifyReq> for InboundEndpoint` (src/node/mod.rs:342-366):
generate a fresh salt (the RNG is modelled by the `salt` argument), read the
clock (`now`), build the challenge expiring 5000 ms later, store it into the
single-slot `identify_data` and return it.  The Rust error type is
`Infallible`, modelled by `Empty`. -/
def preIdentifyStep (salt : Salt) (now : Nat) (e : InboundEndpoint) :
    Except Empty IdentifyData × InboundEndpoint :=
  let identify_data : IdentifyData :=
    { salt := salt, start_time := now, expire_time := now + 5000 }
  (.ok identify_data, { e with identify_data := some identify_data })

/-- `Service<KeyTriad<SignedData>> for InboundHdl` (src/node/mod.rs:378-469),
the identify handler: read the stored challenge, decode the payload, check
the message type and the signature, compare against the challenge, check
expiry, register the key in the server registry (ignoring a duplicate), add
the cached triad to `identities` (a duplicate fails with
`AlreadyIdentified`), extract the notification subscription set (the spawned
fan-out is modelled as completing within the step) and append the key to
`public_keys`. -/
def identifyStep (env : CryptoEnv) (now : Nat) (alive : Bool)
    (e : InboundEndpoint) (srv : ServerHandle) (triad : KeyTriad SignedData) :
    Except IdentifyReqError IdentifyResp × InboundEndpoint × ServerHandle :=
  match e.identify_data with
  | none => (.error .IdentifyDataInvalid, e, srv)
  | some identify_data =>
    match SignedData.to_cached env.jsonDec env.cborDec triad.signed with
    | .error ce => (.error (.ConvertErr ce), e, srv)
    | .ok cached =>
      if cached.signable.msg_type ≠ SignMessageType.Identify
          ∨ env.valid triad.public_key cached.value triad.signature = false then
        (.error .SignatureInvalid, e, srv)
      else if cached.signable.obj ≠ identify_data then
        (.error .IdentifyDataInvalid, e, srv)
      else if now > cached.signable.obj.expire_time then
        (.error .Expired, e, srv)
      else
        let public_key := triad.public_key
        let cached_triad : KeyTriad (CachedSigned IdentifyData) :=
          { public_key := public_key, signature := triad.signature, signed := cached }
        if e.has_server_hdl then
          if alive = false then
            (.error .ServerHdlDropped, e, srv)
          else
            let srv1 := { srv with
              key_to_endpoint := Assoc.insertIfAbsent srv.key_to_endpoint public_key e.id }
            match Assoc.insertNew e.identities public_key cached_triad with
            | none => (.error .AlreadyIdentified, e, srv1)
            | some identities1 =>
              let srv2 := { srv1 with
                notifications := Assoc.erase srv1.notifications public_key }
              (.ok (), { e with identities := identities1,
                                public_keys := e.public_keys ++ [public_key] }, srv2)
        else
          match Assoc.insertNew e.identities public_key cached_triad with
          | none => (.error .AlreadyIdentified, e, srv)
          | some identities1 =>
            (.ok (), { e with identities := identities1,
                              public_keys := e.public_keys ++ [public_key] }, srv)

/-- The per-key loop of `Service<KeysExistsReq> for InboundHdl`
(src/node/mod.rs:306-337): for each requested key, look up the owning
endpoint in `key_to_endpoint`, then the triad in that endpoint's
`identities`; when either lookup fails, subscribe (`notify_when_left`) if
`notify` is set and move on; otherwise append the triad projected back to
wire form.  Handles are ids resolved through `endpoints`; in the source the
handle is an `Arc` and always resolves, so an unresolvable id (unreachable
in well-formed worlds) is treated as an absent key.  Only `notifications` is
mutated, so just that field is threaded. -/
def keysExistsLoop (selfId : Nat) (endpoints : List (Nat × InboundEndpoint))
    (k2e : List (PublicKey × Nat)) (notify : Bool) (keys : List PublicKey)
    (notifs : List (PublicKey × List Nat)) :
    List (KeyTriad SignedData) × List (PublicKey × List Nat) :=
  match keys with
  | [] => ([], notifs)
  | key :: rest =>
    let notifyWhenLeft := fun (n : List (PublicKey × List Nat)) =>
      if notify = true then Assoc.update n key (fun s => insertSet s selfId) [] else n
    match Assoc.find? k2e key with
    | none => keysExistsLoop selfId endpoints k2e notify rest (notifyWhenLeft notifs)
    | some hid =>
      match Assoc.find? endpoints hid with
      | none => keysExistsLoop selfId endpoints k2e notify rest (notifyWhenLeft notifs)
      | some owner =>
        match Assoc.find? owner.identities key with
        | none => keysExistsLoop selfId endpoints k2e notify rest (notifyWhenLeft notifs)
        | some triad =>
          let r := keysExistsLoop selfId endpoints k2e notify rest notifs
          (triad.map (fun c => c.value) :: r.1, r.2)

/-- `Service<KeysExistsReq> for InboundHdl` (src/node/mod.rs:293-341): check
the server handle, run the loop, return the collected triads. -/
def keysExistsStep (alive : Bool) (e : InboundEndpoint)
    (endpoints : List (Nat × InboundEndpoint)) (srv : ServerHandle)
    (req : KeysExistsReq) : Except KeysExistsReqError KeysExistsResp × ServerHandle :=
  if e.has_server_hdl = false then (.error .NotServer, srv)
  else if alive = false then (.error .ServerHdlDropped, srv)
  else
    let r := keysExistsLoop e.id endpoints srv.key_to_endpoint req.notify req.keys
      srv.notifications
    (.ok { triads := r.1 }, { srv with notifications := r.2 })

/-- `Service<CommunicationReq> for InboundEndpoint` (src/node/mod.rs:255-281):
check the server handle, require `from` among this endpoint's own
`identities`, resolve `to` through `key_to_endpoint` and open a stream on
the target's connection.  `open_stream` is the abstract connection
collaborator; it receives the resolved endpoint id and the `from` key, and a
stream is opened exactly when it is invoked, i.e. exactly on the success
path. -/
def communicateStep {R : Type} (openStream : Nat → PublicKey → Except StreamOpenErrorType R)
    (alive : Bool) (e : InboundEndpoint) (srv : ServerHandle)
    (req : CommunicationReq) : Except CommunicationReqError R :=
  if e.has_server_hdl = false then .error .NotServer
  else if alive = false then .error .ServerHdlDropped
  else if (Assoc.find? e.identities req.from_key).isNone then .error .InvalidPublicKey
  else
    match Assoc.find? srv.key_to_endpoint req.to_key with
    | none => .error .CannotFindKey
    | some hid =>
      match openStream hid req.from_key with
      | .ok resp => .ok resp
      | .error err => .error (.StreamOpenErr err)

/-- `2^32`: the modulus of the `u32` cast in the list-servers loop. -/
def U32_MOD : Nat := 4294967296

/-- The loop of `Service<ListConnectedServersReq> for InboundEndpoint`
(src/node/mod.rs:229-239): iterate over `connected_servers` with an index,
break when `Some(index as u32 + 1) == req.max` — before pushing — and
otherwise push the `{ip, domain}` projection (the `unwrap` of `server_info`
is modelled by defaulting an absent domain to `""`). -/
def listServersLoop (connected : List (Nat × EndpointInfo)) (max : Option Nat)
    (index : Nat) : List ConnectedServer :=
  match connected with
  | [] => []
  | (_, info) :: rest =>
    if some ((index % U32_MOD + 1) % U32_MOD) = max then []
    else { ip := info.endpoint.ip,
           domain := (info.server_info.map ServerInfo.domain).getD "" }
      :: listServersLoop rest max (index + 1)

/-- `Service<ListConnectedServersReq> for InboundEndpoint`
(src/node/mod.rs:214-243): check the server handle and run the loop from
index 0. -/
def listConnectedServersStep (alive : Bool) (e : InboundEndpoint)
    (srv : ServerHandle) (req : ListConnectedServersReq) :
    Except ListConnectedServersReqError ListConnectedServersResp :=
  if e.has_server_hdl = false then .error .NotServer
  else if alive = false then .error .ServerHdlDropped
  else .ok { servers := listServersLoop srv.connected_servers req.max 0 }

/-- `ServerHandle::connect_server` (src/node/mod.rs:88-102): reject
non-servers and duplicates (by id), otherwise add to `connected_servers`.
The rejected cases return the handle back; only the state effect is
modelled. -/
def connectServer (srv : ServerHandle) (i : Nat) (info : EndpointInfo) : ServerHandle :=
  if info.server_info.isNone then srv
  else if (Assoc.find? srv.connected_servers i).isSome then srv
  else { srv with connected_servers := srv.connected_servers ++ [(i, info)] }

/-! ### Message taxonomy (src/obj/message.rs) -/

/-- `obj::NodeInfo`. -/
structure NodeInfo where
  api_version : Nat
deriving DecidableEq, Repr

/-- Modelled from the spec: `StartIdentifyReq` is a payload of `ReqMessage`
(src/obj/message.rs:51) but its own definition is not under src/; per the
spec the `START_IDENTIFY` request body is the empty object. -/
structure StartIdentifyReq where
  mk ::
deriving DecidableEq, Repr

/-- `obj::IdentifyReq` (src/obj/mod.rs:14-16). -/
structure IdentifyReq where
  keys : List (KeyTriad SignedData)
deriving DecidableEq, Repr

/-- `obj::InvalidTypeError`: the expected and received wire-level names. -/
structure InvalidTypeError where
  expected : String
  received : String
deriving DecidableEq, Repr

/-- `obj::ReqMessage` (src/obj/message.rs:46-54): the request sum type.  The
source enum has exactly these three variants. -/
inductive ReqMessage where
  | Connect (v : NodeInfo)
  | StartIdentify (v : StartIdentifyReq)
  | Identify (v : IdentifyReq)
deriving DecidableEq, Repr

/-- `ObjectType::object_type` for `ReqMessage`: the serde rename tag of each
variant, as produced by the `convert_impl!` expansions
(src/obj/message.rs:56-67). -/
def ReqMessage.object_type : ReqMessage → String
  | .Connect _ => "NODE_INFO"
  | .StartIdentify _ => "START_IDENTIFY"
  | .Identify _ => "IDENTIFY"

/-- The wire-level names of the `ReqMessage` variants, read off the serde
rename attributes of the enum (src/obj/message.rs:46-54). -/
def ReqMessage.variantNames : List String :=
  ["NODE_INFO", "START_IDENTIFY", "IDENTIFY"]

/-- `TryFrom<ReqMessage> for NodeInfo` (the `convert_impl!` expansion at
src/obj/message.rs:65): project the sum to the `NODE_INFO` variant, failing
with `InvalidTypeError` otherwise. -/
def NodeInfo.try_from : ReqMessage → Except InvalidTypeError NodeInfo
  | .Connect v => .ok v
  | m => .error { expected := "NODE_INFO", received := m.object_type }

/-- `TryFrom<ReqMessage> for StartIdentifyReq` (src/obj/message.rs:67). -/
def StartIdentifyReq.try_from : ReqMessage → Except InvalidTypeError StartIdentifyReq
  | .StartIdentify v => .ok v
  | m => .error { expected := "START_IDENTIFY", received := m.object_type }

/-- `TryFrom<ReqMessage> for IdentifyReq` (src/obj/message.rs:66). -/
def IdentifyReq.try_from : ReqMessage → Except InvalidTypeError IdentifyReq
  | .Identify v => .ok v
  | m => .error { expected := "IDENTIFY", received := m.object_type }

/-! ### The world: traces of completed handler invocations -/

/-- The node-side world: the shared registry, whether the strong
`ServerHandle` reference is still held (`alive`), and the inbound endpoints
keyed by id. -/
structure World where
  alive : Bool
  srv : ServerHandle
  endpoints : List (Nat × InboundEndpoint)
deriving DecidableEq, Repr

/-- The world before any endpoint has connected. -/
def World.init : World :=
  { alive := true, srv := ServerHandle.new, endpoints := [] }

/-- `InboundEndpoint::client` / `InboundEndpoint::server`
(src/node/mod.rs:160-193): a fresh endpoint with empty identification
state. -/
def InboundEndpoint.new (i : Nat) (hasHdl : Bool) (info : EndpointInfo) :
    InboundEndpoint :=
  { id := i, has_server_hdl := hasHdl, identify_data := none,
    public_keys := [], identities := [], info := info }

/-- The identify handler lifted to the world: run `identifyStep` on the
endpoint with id `i` and write the updated endpoint and registry back.  A
missing id leaves the world unchanged. -/
def World.identify (env : CryptoEnv) (now : Nat) (i : Nat)
    (triad : KeyTriad SignedData) (w : World) :
    Except IdentifyReqError IdentifyResp × World :=
  match Assoc.find? w.endpoints i with
  | none => (.error .IdentifyDataInvalid, w)
  | some e =>
    let r := identifyStep env now w.alive e w.srv triad
    (r.1, { w with srv := r.2.2, endpoints := Assoc.set w.endpoints i r.2.1 })

/-- One completed handler invocation (or connection event) in a trace. -/
inductive Op where
  | newEndpoint (i : Nat) (hasHdl : Bool) (info : EndpointInfo)
  | connectServer (i : Nat)
  | preIdentify (i : Nat) (salt : Salt) (now : Nat)
  | identify (i : Nat) (now : Nat) (triad : KeyTriad SignedData)
  | keysExists (i : Nat) (req : KeysExistsReq)
  | communicate (i : Nat) (req : CommunicationReq)
  | listServers (i : Nat) (req : ListConnectedServersReq)
  | dropServer

/-- Apply one completed invocation to the world.  `communicate` and
`listServers` do not mutate node state; `dropServer` models the node
dropping its strong `ServerHandle` reference. -/
def stepOp (env : CryptoEnv) (w : World) : Op → World
  | .newEndpoint i hasHdl info =>
    match Assoc.insertNew w.endpoints i (InboundEndpoint.new i hasHdl info) with
    | some es => { w with endpoints := es }
    | none => w
  | .connectServer i =>
    match Assoc.find? w.endpoints i with
    | some e => if w.alive then { w with srv := connectServer w.srv i e.info } else w
    | none => w
  | .preIdentify i salt now =>
    match Assoc.find? w.endpoints i with
    | some e =>
      { w with endpoints := Assoc.set w.endpoints i (preIdentifyStep salt now e).2 }
    | none => w
  | .identify i now triad => (World.identify env now i triad w).2
  | .keysExists i req =>
    match Assoc.find? w.endpoints i with
    | some e => { w with srv := (keysExistsStep w.alive e w.endpoints w.srv req).2 }
    | none => w
  | .communicate _ _ => w
  | .listServers _ _ => w
  | .dropServer => { w with alive := false }

/-- Run a trace of completed invocations. -/
def runOps (env : CryptoEnv) (w : World) : List Op → World
  | [] => w
  | op :: rest => runOps env (stepOp env w op) rest

/-- Whether an identify invocation on endpoint `i` succeeds in world `w`. -/
def identifyOk (env : CryptoEnv) (now : Nat) (i : Nat)
    (triad : KeyTriad SignedData) (w : World) : Bool :=
  match (World.identify env now i triad w).1 with
  | .ok _ => true
  | .error _ => false

/-- The key appended to endpoint `i` by one invocation: the submitted key
when the invocation is an identify on `i` that succeeds, nothing otherwise. -/
def opSuccKey (env : CryptoEnv) (w : World) (i : Nat) : Op → List PublicKey
  | .identify j now triad =>
    if j = i ∧ identifyOk env now j triad w = true then [triad.public_key] else []
  | _ => []

/-- The keys of the identify invocations on endpoint `i` that succeed along
a trace, in trace order. -/
def succIdentifies (env : CryptoEnv) (w : World) (i : Nat) : List Op → List PublicKey
  | [] => []
  | op :: rest => opSuccKey env w i op ++ succIdentifies env (stepOp env w op) i rest

/-- The `public_keys` of endpoint `i`, or `[]` when `i` is not connected. -/
def keysOf (w : World) (i : Nat) : List PublicKey :=
  match Assoc.find? w.endpoints i with
  | some e => e.public_keys
  | none => []

/-- The per-endpoint ledger invariant of a world: for every connected
endpoint, the keys of `identities` in insertion order are exactly
`public_keys`, and `public_keys` is duplicate-free. -/
def WorldInv (w : World) : Prop :=
  ∀ i e, Assoc.find? w.endpoints i = some e →
    e.identities.map Prod.fst = e.public_keys ∧ e.public_keys.Nodup

/-! ### Specification-side functions for the KeysExists characterisation -/

/-- Stated from the claim: the triad the KeysExists response should carry
for a requested key — the one held by the owning endpoint registered in
`key_to_endpoint`, provided that endpoint still holds it in `identities`. -/
def keysExistsSpecTriad (endpoints : List (Nat × InboundEndpoint))
    (k2e : List (PublicKey × Nat)) (key : PublicKey) :
    Option (KeyTriad (CachedSigned IdentifyData)) :=
  match Assoc.find? k2e key with
  | none => none
  | some hid =>
    match Assoc.find? endpoints hid with
    | none => none
    | some owner => Assoc.find? owner.identities key

/-- Stated from the claim: the notifications map after a KeysExists request
— the requester is added to the subscription set of every requested key that
is absent, when `notify` is set. -/
def keysExistsSpecNotifs (selfId : Nat) (endpoints : List (Nat × InboundEndpoint))
    (k2e : List (PublicKey × Nat)) (notify : Bool) (keys : List PublicKey)
    (notifs : List (PublicKey × List Nat)) : List (PublicKey × List Nat) :=
  keys.foldl (fun n key =>
    if (keysExistsSpecTriad endpoints k2e key).isNone ∧ notify = true then
      Assoc.update n key (fun s => insertSet s selfId) []
    else n) notifs

/-! ### Concrete fixtures, used by the witnesses and counterexamples -/

/-- An all-zero sixteen-byte salt. -/
def salt0 : Salt := ⟨List.replicate 16 0, by decide⟩

/-- A sample public key. -/
def pk0 : PublicKey := ⟨[1]⟩

/-- A second sample public key. -/
def pk1 : PublicKey := ⟨[2]⟩

/-- A sample signature. -/
def sig0 : Signature := ⟨[9]⟩

/-- A sample challenge: issued at 0, expiring at 5000. -/
def d0 : IdentifyData := { salt := salt0, start_time := 0, expire_time := 5000 }

/-- The signable identify payload carrying `d0`. -/
def sg0 : Signable IdentifyData := { msg_type := .Identify, obj := d0 }

/-- A crypto environment whose CBOR decoder yields `sg0` and whose signature
check accepts. -/
def env0 : CryptoEnv :=
  { jsonDec := fun _ => none
  , cborDec := fun _ => some sg0
  , valid := fun _ _ _ => true }

/-- Like `env0` but the signature check rejects. -/
def envReject : CryptoEnv := { env0 with valid := fun _ _ _ => false }

/-- A sample wire-form triad for `pk0`. -/
def triad0 : KeyTriad SignedData := { public_key := pk0, signature := sig0, signed := .Cbor [3] }

/-- The cached form of `triad0` under `env0`. -/
def cached0 : CachedSigned IdentifyData := { signable := sg0, value := .Cbor [3] }

/-- The cached triad stored in `identities` after `triad0` verifies. -/
def ctriad0 : KeyTriad (CachedSigned IdentifyData) :=
  { public_key := pk0, signature := sig0, signed := cached0 }

/-- Endpoint info of a plain client. -/
def info0 : EndpointInfo := { server_info := none, endpoint := { ip := 4, port := 10 } }

/-- Endpoint info of a server peer. -/
def infoSrv : EndpointInfo :=
  { server_info := some { domain := "example.org" }, endpoint := { ip := 7, port := 11 } }

/-- A client endpoint holding the challenge `d0`. -/
def e0 : InboundEndpoint :=
  { id := 0, has_server_hdl := false, identify_data := some d0,
    public_keys := [], identities := [], info := info0 }

/-- `e0` after `triad0` has identified. -/
def eIdentified : InboundEndpoint :=
  { e0 with public_keys := [pk0], identities := [(pk0, ctriad0)] }

/-- A server-scoped endpoint holding the challenge `d0`. -/
def eSrv : InboundEndpoint := { e0 with id := 2, has_server_hdl := true }

/-- `eSrv` after `triad0` has identified. -/
def eSrvIdentified : InboundEndpoint :=
  { eSrv with public_keys := [pk0], identities := [(pk0, ctriad0)] }

/-- The empty registry. -/
def srv0 : ServerHandle := ServerHandle.new

/-- A registry with one connected server and `pk0` owned by endpoint 2. -/
def srv1 : ServerHandle :=
  { key_to_endpoint := [(pk0, 2)], connected_servers := [(1, infoSrv)],
    notifications := [] }

/-- A sample trace: endpoint 0 connects, receives a challenge and identifies
with `triad0`. -/
def ops0 : List Op :=
  [.newEndpoint 0 false info0, .preIdentify 0 salt0 0, .identify 0 0 triad0]

/-! ## Shared lemmas -/

theorem Assoc.find?_eq_none_iff {K V : Type} [DecidableEq K] (l : List (K × V)) (k : K) :
    Assoc.find? l k = none ↔ k ∉ l.map Prod.fst := by
  induction l with
  | nil => simp [Assoc.find?]
  | cons p rest ih =>
    obtain ⟨k', v⟩ := p
    rw [Assoc.find?]
    by_cases h : k' = k
    · subst h
      simp
    · have h2 : ¬ k = k' := fun hh => h hh.symm
      rw [if_neg h, ih]
      simp [List.mem_cons, h2]

theorem Assoc.insertNew_eq_some {K V : Type} [DecidableEq K] {l l2 : List (K × V)}
    {k : K} {v : V} (h : Assoc.insertNew l k v = some l2) :
    Assoc.find? l k = none ∧ l2 = l ++ [(k, v)] := by
  unfold Assoc.insertNew at h
  cases hf : Assoc.find? l k with
  | some w => rw [hf] at h; cases h
  | none => rw [hf] at h; exact ⟨rfl, (Option.some.inj h).symm⟩

theorem Assoc.find?_append_single {K V : Type} [DecidableEq K] (l : List (K × V))
    (k : K) (v : V) (k2 : K) :
    Assoc.find? (l ++ [(k, v)]) k2 =
      match Assoc.find? l k2 with
      | some w => some w
      | none => if k = k2 then some v else none := by
  induction l with
  | nil => simp [Assoc.find?]
  | cons p rest ih =>
    obtain ⟨k', w⟩ := p
    by_cases h : k' = k2 <;> simp [Assoc.find?, h, ih]

theorem Assoc.find?_set_of_found {K V : Type} [DecidableEq K] {l : List (K × V)}
    {k : K} {e : V} (v : V) (h : Assoc.find? l k = some e) (k2 : K) :
    Assoc.find? (Assoc.set l k v) k2 = if k = k2 then some v else Assoc.find? l k2 := by
  induction l with
  | nil => simp [Assoc.find?] at h
  | cons p rest ih =>
    obtain ⟨k', w⟩ := p
    by_cases hk : k' = k
    · subst hk
      by_cases h2 : k' = k2 <;> simp [Assoc.find?, Assoc.set, h2]
    · rw [Assoc.find?] at h
      rw [if_neg hk] at h
      by_cases h2 : k' = k2
      · subst h2
        have h3 : ¬ k = k' := fun hc => hk hc.symm
        simp [Assoc.set, Assoc.find?, hk, h3]
      · simp [Assoc.set, Assoc.find?, hk, h2, ih h]

/-- `Signed::to_cached` propagates exactly the errors of `to_signable`. -/
theorem Signed.to_cached_error_iff {T : Type} (jsonDec : String → Option (Signable T))
    (cborDec : Bytes → Option (Signable T)) (s : Signed) (e : SignedConvertError) :
    s.to_cached jsonDec cborDec = .error e ↔ s.to_signable jsonDec cborDec = .error e := by
  unfold Signed.to_cached
  cases h : s.to_signable jsonDec cborDec <;> simp

/-! ## Claim theorems -/

/-- C4: every PreIdentify invocation succeeds (its error type is
`Infallible`), returns the challenge whose `start_time` is the clock reading
and whose `expire_time` is `start_time + 5000` ms, whose salt is a 16-byte
array, and stores exactly that challenge into the endpoint's single-slot
`identify_data`, overwriting whatever challenge was stored before. -/
theorem preIdentify_spec (salt : Salt) (now : Nat) (e : InboundEndpoint) :
    preIdentifyStep salt now e =
      (.ok { salt := salt, start_time := now, expire_time := now + 5000 },
        { e with identify_data := some { salt := salt, start_time := now, expire_time := now + 5000 } }) ∧
      salt.val.length = SALT_SIZE :=
  ⟨rfl, salt.property⟩

/-- C10: `Signed::to_signable` and `Signed::to_cached` fail with `BothNone`
exactly when both the `json` and `cbor` components are `None`; and when both
components are present, the result is exactly that of decoding pure CBOR
wire data — the CBOR bytes are decoded and cached as the wire form, and the
JSON component is ignored (so the cached wire form is never the JSON
bytes). -/
theorem signed_both_none_and_cbor_preference {T : Type}
    (jsonDec : String → Option (Signable T)) (cborDec : Bytes → Option (Signable T)) :
    (∀ s : Signed,
      (s.to_signable jsonDec cborDec = .error .BothNone ↔ s.json = none ∧ s.cbor = none) ∧
      (s.to_cached jsonDec cborDec = .error .BothNone ↔ s.json = none ∧ s.cbor = none)) ∧
    (∀ (j : String) (b : Bytes),
      Signed.to_cached jsonDec cborDec { json := some j, cbor := some b } =
        SignedData.to_cached jsonDec cborDec (SignedData.Cbor b)) := by
  have hsig : ∀ s : Signed,
      s.to_signable jsonDec cborDec = .error .BothNone ↔ s.json = none ∧ s.cbor = none := by
    intro s
    obtain ⟨j, c⟩ := s
    cases c with
    | some v => cases hc : cborDec v <;> simp [Signed.to_signable, hc]
    | none =>
      cases j with
      | some v => cases hj : jsonDec v <;> simp [Signed.to_signable, hj]
      | none => simp [Signed.to_signable]
  refine ⟨fun s => ⟨hsig s, (Signed.to_cached_error_iff jsonDec cborDec s _).trans (hsig s)⟩,
    fun j b => ?_⟩
  unfold Signed.to_cached Signed.to_signable SignedData.to_cached
  cases hc : cborDec b <;> simp [hc]

/-- C9 counterexample: the wire-level names `KEYS_EXISTS`, `COMMUNICATE` and
`LIST_SERVERS` are not among the variant names of the `ReqMessage` enum —
the source enum has only the `NODE_INFO`, `START_IDENTIFY` and `IDENTIFY`
variants. -/
theorem reqMessage_missing_variants :
    (ReqMessage.variantNames.contains "KEYS_EXISTS") = false ∧
    (ReqMessage.variantNames.contains "COMMUNICATE") = false ∧
    (ReqMessage.variantNames.contains "LIST_SERVERS") = false := by
  decide

/-- C9 (amended): `ReqMessage` has tagged variants exactly for `NODE_INFO`,
`START_IDENTIFY` and `IDENTIFY`; projection from the sum type to each
variant succeeds on that variant and fails on every other variant with
`InvalidTypeError` carrying the expected and received names. -/
theorem reqMessage_taxonomy :
    (∀ m : ReqMessage, m.object_type ∈ ReqMessage.variantNames) ∧
    (∀ v, NodeInfo.try_from (ReqMessage.Connect v) = .ok v) ∧
    (∀ v, StartIdentifyReq.try_from (ReqMessage.StartIdentify v) = .ok v) ∧
    (∀ v, IdentifyReq.try_from (ReqMessage.Identify v) = .ok v) ∧
    (∀ v, NodeInfo.try_from (ReqMessage.StartIdentify v) =
      .error { expected := "NODE_INFO", received := "START_IDENTIFY" }) ∧
    (∀ v, NodeInfo.try_from (ReqMessage.Identify v) =
      .error { expected := "NODE_INFO", received := "IDENTIFY" }) ∧
    (∀ v, StartIdentifyReq.try_from (ReqMessage.Connect v) =
      .error { expected := "START_IDENTIFY", received := "NODE_INFO" }) ∧
    (∀ v, StartIdentifyReq.try_from (ReqMessage.Identify v) =
      .error { expected := "START_IDENTIFY", received := "IDENTIFY" }) ∧
    (∀ v, IdentifyReq.try_from (ReqMessage.Connect v) =
      .error { expected := "IDENTIFY", received := "NODE_INFO" }) ∧
    (∀ v, IdentifyReq.try_from (ReqMessage.StartIdentify v) =
      .error { expected := "IDENTIFY", received := "START_IDENTIFY" }) :=
  ⟨fun m => by cases m <;> (simp only [ReqMessage.object_type]; decide),
    fun _ => rfl, fun _ => rfl, fun _ => rfl, fun _ => rfl,
    fun _ => rfl, fun _ => rfl, fun _ => rfl, fun _ => rfl, fun _ => rfl⟩

/-- C8 (code bug): with exactly one connected server, `max = Some 1` yields
an empty list — the loop breaks at index 0, before pushing — while the
request field's documentation ("the maximum amount of connected servers to
list") and the spec promise `min(max, len)` entries, here one; with
`max = None` the same registry yields the one entry, projected to ip and
domain. -/
theorem listServers_off_by_one :
    listConnectedServersStep true eSrv srv1 { max := some 1 } = .ok { servers := [] } ∧
    listConnectedServersStep true eSrv srv1 { max := none } =
      .ok { servers := [ConnectedServer.mk 7 "example.org"] } ∧
    srv1.connected_servers.length = 1 := by
  refine ⟨?_, ?_, rfl⟩ <;> rfl

/-- C7: on a server-scoped endpoint with a live handle, a Communicate
request whose `from` key this endpoint has not identified fails with
`InvalidPublicKey` — only this endpoint's own `identities` map is consulted,
whatever any other endpoint has identified — and a request whose `from` key
is identified but whose `to` key resolves to no endpoint in
`key_to_endpoint` fails with `CannotFindKey`.  Both failures hold for every
`open_stream` collaborator, which is only invoked on the success path, so no
stream is opened. -/
theorem communicate_guards {R : Type}
    (openStream : Nat → PublicKey → Except StreamOpenErrorType R)
    (e : InboundEndpoint) (srv : ServerHandle) (req : CommunicationReq)
    (hhdl : e.has_server_hdl = true) :
    (Assoc.find? e.identities req.from_key = none →
      communicateStep openStream true e srv req = .error .InvalidPublicKey) ∧
    (∀ t, Assoc.find? e.identities req.from_key = some t →
      Assoc.find? srv.key_to_endpoint req.to_key = none →
      communicateStep openStream true e srv req = .error .CannotFindKey) := by
  constructor
  · intro h
    simp [communicateStep, hhdl, h]
  · intro t h1 h2
    simp [communicateStep, hhdl, h1, h2]

/-- Witness for C7 at concrete inputs: endpoint 2 has identified only `pk0`;
`from = pk1` is rejected as `InvalidPublicKey` even though nothing else
distinguishes `pk1`, and `from = pk0, to = pk1` with `pk1` unregistered
fails with `CannotFindKey`. -/
theorem communicate_guards_witness :
    communicateStep (fun _ _ => Except.ok ()) true eSrvIdentified srv1
      { from_key := pk1, to_key := pk0 } = .error .InvalidPublicKey ∧
    communicateStep (fun _ _ => Except.ok ()) true eSrvIdentified srv1
      { from_key := pk0, to_key := pk1 } = .error .CannotFindKey :=
  ⟨(communicate_guards (fun _ _ => Except.ok ()) eSrvIdentified srv1
      { from_key := pk1, to_key := pk0 } rfl).1 (by decide),
   (communicate_guards (fun _ _ => Except.ok ()) eSrvIdentified srv1
      { from_key := pk0, to_key := pk1 } rfl).2 ctriad0 (by decide) (by decide)⟩

/-- C2: an Identify request fails with `IdentifyDataInvalid`, leaving the
endpoint (its `identities` map included) and the registry untouched, both
when no challenge is stored in `identify_data` and when the payload decodes
with a valid signature but the decoded `IdentifyData` differs from the
stored challenge. -/
theorem identify_data_invalid_cases (env : CryptoEnv) (now : Nat) (alive : Bool)
    (e : InboundEndpoint) (srv : ServerHandle) (triad : KeyTriad SignedData) :
    (e.identify_data = none →
      identifyStep env now alive e srv triad = (.error .IdentifyDataInvalid, e, srv)) ∧
    (∀ d cached, e.identify_data = some d →
      SignedData.to_cached env.jsonDec env.cborDec triad.signed = .ok cached →
      cached.signable.msg_type = SignMessageType.Identify →
      env.valid triad.public_key cached.value triad.signature = true →
      cached.signable.obj ≠ d →
      identifyStep env now alive e srv triad = (.error .IdentifyDataInvalid, e, srv)) := by
  constructor
  · intro h
    simp [identifyStep, h]
  · intro d cached hid hdec hmsg hval hobj
    simp [identifyStep, hid, hdec, hmsg, hval, hobj]

/-- Witness for C2 at concrete inputs: an endpoint with no stored challenge,
and an endpoint whose stored challenge has a later expiry than the one a
correctly signed payload carries. -/
theorem identify_data_invalid_cases_witness :
    identifyStep env0 0 true (InboundEndpoint.new 5 false info0) srv0 triad0 =
      (.error .IdentifyDataInvalid, InboundEndpoint.new 5 false info0, srv0) ∧
    identifyStep env0 0 true { e0 with identify_data := some { d0 with expire_time := 9999 } }
      srv0 triad0 =
      (.error .IdentifyDataInvalid, { e0 with identify_data := some { d0 with expire_time := 9999 } }, srv0) :=
  ⟨(identify_data_invalid_cases env0 0 true (InboundEndpoint.new 5 false info0) srv0 triad0).1
      rfl,
   (identify_data_invalid_cases env0 0 true
      { e0 with identify_data := some { d0 with expire_time := 9999 } } srv0 triad0).2
      { d0 with expire_time := 9999 } cached0 rfl rfl rfl rfl (by decide)⟩

/-- C3 counterexample: at `now = 6000`, strictly past the stored challenge's
`expire_time = 5000`, an Identify request whose signature does not verify
fails with `SignatureInvalid`, not `Expired` — the expiry check runs only
after the decode, signature and challenge-match checks, so the claim's
unrestricted quantification over submitted triads fails. -/
theorem identify_expired_claim_counterexample :
    identifyStep envReject 6000 true e0 srv0 triad0 = (.error .SignatureInvalid, e0, srv0) ∧
    6000 > d0.expire_time ∧
    (identifyStep envReject 6000 true e0 srv0 triad0).1 ≠ .error .Expired := by
  refine ⟨by decide, by decide, by decide⟩

/-- C3 (amended): an Identify request evaluated at `now` strictly past the
challenge's expiry fails with `Expired`, leaving the endpoint and the
registry untouched, provided the earlier checks pass: a challenge is stored,
the payload decodes, the message type and signature verify, and the decoded
data equals the stored challenge. -/
theorem identify_expired_after_checks (env : CryptoEnv) (now : Nat) (alive : Bool)
    (e : InboundEndpoint) (srv : ServerHandle) (triad : KeyTriad SignedData)
    (d : IdentifyData) (cached : CachedSigned IdentifyData)
    (hid : e.identify_data = some d)
    (hdec : SignedData.to_cached env.jsonDec env.cborDec triad.signed = .ok cached)
    (hmsg : cached.signable.msg_type = SignMessageType.Identify)
    (hval : env.valid triad.public_key cached.value triad.signature = true)
    (hobj : cached.signable.obj = d)
    (hexp : now > cached.signable.obj.expire_time) :
    identifyStep env now alive e srv triad = (.error .Expired, e, srv) := by
  simp [identifyStep, hid, hdec, hmsg, hval, hobj, hobj ▸ hexp]

/-- Witness for C3 (amended): the checks pass at `now = 6000 > 5000` and the
result is `Expired`. -/
theorem identify_expired_after_checks_witness :
    identifyStep env0 6000 true e0 srv0 triad0 = (.error .Expired, e0, srv0) :=
  identify_expired_after_checks env0 6000 true e0 srv0 triad0 d0 cached0
    rfl rfl rfl rfl rfl (by decide)

/-- C1: when a triad for the submitted key is already present in the
endpoint's `identities` map, an Identify request that passes all the checks
before the insert (stored challenge, decode, type and signature, challenge
match, expiry, live server handle) fails with `AlreadyIdentified`, leaves
the endpoint — in particular its `identities` map — unchanged, and the
stored triad for the key remains the one from the first successful
Identify. -/
theorem identify_second_time_already_identified (env : CryptoEnv) (now : Nat)
    (alive : Bool) (e : InboundEndpoint) (srv : ServerHandle)
    (triad : KeyTriad SignedData) (d : IdentifyData)
    (cached : CachedSigned IdentifyData) (t0 : KeyTriad (CachedSigned IdentifyData))
    (hid : e.identify_data = some d)
    (hdec : SignedData.to_cached env.jsonDec env.cborDec triad.signed = .ok cached)
    (hmsg : cached.signable.msg_type = SignMessageType.Identify)
    (hval : env.valid triad.public_key cached.value triad.signature = true)
    (hobj : cached.signable.obj = d)
    (hexp : ¬ now > cached.signable.obj.expire_time)
    (hsrv : e.has_server_hdl = true → alive = true)
    (hprev : Assoc.find? e.identities triad.public_key = some t0) :
    (identifyStep env now alive e srv triad).1 = .error .AlreadyIdentified ∧
    (identifyStep env now alive e srv triad).2.1 = e ∧
    Assoc.find? (identifyStep env now alive e srv triad).2.1.identities
      triad.public_key = some t0 := by
  have hins : ∀ ct, Assoc.insertNew e.identities triad.public_key ct = none := by
    intro ct
    unfold Assoc.insertNew
    rw [hprev]
  have hexp2 : ¬ d.expire_time < now := by rw [hobj] at hexp; exact hexp
  cases hhdl : e.has_server_hdl with
  | true =>
    have ha : alive = true := hsrv hhdl
    subst ha
    simp [identifyStep, hid, hdec, hmsg, hval, hobj, hexp2, hhdl, hins, hprev]
  | false =>
    simp [identifyStep, hid, hdec, hmsg, hval, hobj, hexp2, hhdl, hins, hprev]

/-- Witness for C1 at concrete inputs: endpoint 0 already holds `pk0`;
replaying `triad0` against the still-stored challenge fails with
`AlreadyIdentified` and keeps the original cached triad. -/
theorem identify_second_time_already_identified_witness :
    (identifyStep env0 0 true eIdentified srv0 triad0).1 = .error .AlreadyIdentified ∧
    (identifyStep env0 0 true eIdentified srv0 triad0).2.1 = eIdentified ∧
    Assoc.find? (identifyStep env0 0 true eIdentified srv0 triad0).2.1.identities
      triad0.public_key = some ctriad0 :=
  identify_second_time_already_identified env0 0 true eIdentified srv0 triad0 d0
    cached0 ctriad0 rfl rfl rfl rfl rfl (by decide) (fun h => by cases h) (by decide)

/-- The per-key loop of the KeysExists handler returns exactly the present
triads, projected to wire form, in request order, and subscribes the
requester to each absent key when `notify` is set. -/
theorem keysExistsLoop_characterisation (selfId : Nat)
    (endpoints : List (Nat × InboundEndpoint)) (k2e : List (PublicKey × Nat))
    (notify : Bool) :
    ∀ (keys : List PublicKey) (notifs : List (PublicKey × List Nat)),
      keysExistsLoop selfId endpoints k2e notify keys notifs =
        (keys.filterMap (fun k => (keysExistsSpecTriad endpoints k2e k).map
            (fun t => t.map (fun c => c.value))),
         keysExistsSpecNotifs selfId endpoints k2e notify keys notifs) := by
  intro keys
  induction keys with
  | nil => intro notifs; rfl
  | cons key rest ih =>
    intro notifs
    rw [keysExistsLoop]
    simp only [keysExistsSpecNotifs, List.foldl_cons, List.filterMap_cons]
    cases h1 : Assoc.find? k2e key with
    | none =>
      simp [keysExistsSpecTriad, h1, ih, keysExistsSpecNotifs]
    | some hid =>
      cases h2 : Assoc.find? endpoints hid with
      | none =>
        simp [keysExistsSpecTriad, h1, h2, ih, keysExistsSpecNotifs]
      | some owner =>
        cases h3 : Assoc.find? owner.identities key with
        | none =>
          simp [keysExistsSpecTriad, h1, h2, h3, ih, keysExistsSpecNotifs]
        | some triad =>
          simp [keysExistsSpecTriad, h1, h2, h3, ih, keysExistsSpecNotifs]

/-- C6: on a server-scoped endpoint with a live handle, a KeysExists request
returns exactly the triads of the requested keys that are registered in
`key_to_endpoint` and still held in the owning endpoint's `identities` —
projected from `CachedSigned` back to wire-form `SignedData`, in the order
of the request's keys — omitting each key absent under either check, and,
when `notify` is set, adds the requesting endpoint to the subscription set
of every absent key (creating the set if needed). -/
theorem keysExists_characterisation (e : InboundEndpoint)
    (endpoints : List (Nat × InboundEndpoint)) (srv : ServerHandle)
    (req : KeysExistsReq) (hhdl : e.has_server_hdl = true) :
    keysExistsStep true e endpoints srv req =
      (.ok { triads := req.keys.filterMap (fun k =>
          (keysExistsSpecTriad endpoints srv.key_to_endpoint k).map
            (fun t => t.map (fun c => c.value))) },
       { srv with notifications :=
                    keysExistsSpecNotifs e.id endpoints srv.key_to_endpoint
                      req.notify req.keys srv.notifications }) := by
  simp [keysExistsStep, hhdl, keysExistsLoop_characterisation]

/-- Witness for C6 at concrete inputs: endpoint 2 owns `pk0`; requesting
`[pk0, pk1]` with `notify = true` returns exactly the wire triad for `pk0`
and subscribes endpoint 2 to `pk1`. -/
theorem keysExists_characterisation_witness :
    keysExistsStep true eSrvIdentified [(2, eSrvIdentified)] srv1
      { keys := [pk0, pk1], notify := true } =
      (.ok { triads := ([pk0, pk1]).filterMap (fun k =>
          (keysExistsSpecTriad [(2, eSrvIdentified)] srv1.key_to_endpoint k).map
            (fun t => t.map (fun c => c.value))) },
       { srv1 with notifications :=
                     keysExistsSpecNotifs eSrvIdentified.id [(2, eSrvIdentified)]
                       srv1.key_to_endpoint true [pk0, pk1] srv1.notifications }) :=
  keysExists_characterisation eSrvIdentified [(2, eSrvIdentified)] srv1
    { keys := [pk0, pk1], notify := true } rfl

/-- The identify handler either fails and returns the endpoint unchanged, or
succeeds, in which case the submitted key was absent from `identities` and
both `identities` and `public_keys` are extended by exactly that key. -/
theorem identifyStep_endpoint (env : CryptoEnv) (now : Nat) (alive : Bool)
    (e : InboundEndpoint) (srv : ServerHandle) (triad : KeyTriad SignedData) :
    ((∃ err, (identifyStep env now alive e srv triad).1 = .error err) ∧
      (identifyStep env now alive e srv triad).2.1 = e) ∨
    ((identifyStep env now alive e srv triad).1 = .ok () ∧
      ∃ ct, Assoc.find? e.identities triad.public_key = none ∧
        (identifyStep env now alive e srv triad).2.1 =
          { e with identities := e.identities ++ [(triad.public_key, ct)],
                   public_keys := e.public_keys ++ [triad.public_key] }) := by
  cases hid : e.identify_data with
  | none => left; simp [identifyStep, hid]
  | some d =>
    cases hdec : SignedData.to_cached env.jsonDec env.cborDec triad.signed with
    | error ce => left; simp [identifyStep, hid, hdec]
    | ok cached =>
      by_cases hmsg : cached.signable.msg_type = SignMessageType.Identify
      case neg => exact absurd (by cases h : cached.signable.msg_type; rfl) hmsg
      cases hval : env.valid triad.public_key cached.value triad.signature with
      | false => left; simp [identifyStep, hid, hdec, hmsg, hval]
      | true =>
        by_cases hobj : cached.signable.obj = d
        case neg => left; simp [identifyStep, hid, hdec, hmsg, hval, hobj]
        by_cases hexp : d.expire_time < now
        case pos => left; simp [identifyStep, hid, hdec, hmsg, hval, hobj, hexp]
        cases hhdl : e.has_server_hdl with
        | false =>
          cases hins : Assoc.insertNew e.identities triad.public_key
              { public_key := triad.public_key, signature := triad.signature,
                signed := cached } with
          | none => left; simp [identifyStep, hid, hdec, hmsg, hval, hobj, hexp, hhdl, hins]
          | some ids1 =>
            right
            obtain ⟨hfind, hids⟩ := Assoc.insertNew_eq_some hins
            subst hids
            exact ⟨by simp [identifyStep, hid, hdec, hmsg, hval, hobj, hexp, hhdl, hins],
              ⟨{ public_key := triad.public_key, signature := triad.signature,
                 signed := cached }, hfind,
                by simp [identifyStep, hid, hdec, hmsg, hval, hobj, hexp, hhdl, hins]⟩⟩
        | true =>
          cases halive : alive with
          | false =>
            left
            simp [identifyStep, hid, hdec, hmsg, hval, hobj, hexp, hhdl, halive]
          | true =>
            cases hins : Assoc.insertNew e.identities triad.public_key
                { public_key := triad.public_key, signature := triad.signature,
                  signed := cached } with
            | none =>
              left
              simp [identifyStep, hid, hdec, hmsg, hval, hobj, hexp, hhdl, halive, hins]
            | some ids1 =>
              right
              obtain ⟨hfind, hids⟩ := Assoc.insertNew_eq_some hins
              subst hids
              exact ⟨by simp [identifyStep, hid, hdec, hmsg, hval, hobj, hexp, hhdl, halive, hins],
                ⟨{ public_key := triad.public_key, signature := triad.signature,
                   signed := cached }, hfind,
                  by simp [identifyStep, hid, hdec, hmsg, hval, hobj, hexp, hhdl, halive,
                    hins]⟩⟩

/-- An identify invocation counts as successful exactly when the world-level
handler returns `Ok`. -/
theorem identifyOk_iff (env : CryptoEnv) (now : Nat) (i : Nat)
    (triad : KeyTriad SignedData) (w : World) :
    identifyOk env now i triad w = true ↔
      (World.identify env now i triad w).1 = .ok () := by
  unfold identifyOk
  cases h : (World.identify env now i triad w).1 with
  | ok r => simp
  | error err => simp

/-- The world-level identify handler preserves the ledger invariant. -/
theorem World.identify_inv (env : CryptoEnv) (now : Nat) (i : Nat)
    (triad : KeyTriad SignedData) (w : World) (hw : WorldInv w) :
    WorldInv (World.identify env now i triad w).2 := by
  cases hfe : Assoc.find? w.endpoints i with
  | none =>
    intro j ej hj
    rw [World.identify] at hj
    rw [hfe] at hj
    exact hw j ej hj
  | some e =>
    intro j ej hj
    rw [World.identify] at hj
    rw [hfe] at hj
    simp only at hj
    rw [Assoc.find?_set_of_found _ hfe j] at hj
    rcases identifyStep_endpoint env now w.alive e w.srv triad with hfail | hsucc
    · by_cases hij : i = j
      · rw [if_pos hij] at hj
        have he1 : ej = e := by
          rw [hfail.2] at hj
          exact (Option.some.inj hj).symm
        rw [he1]
        exact hw i e hfe
      · rw [if_neg hij] at hj
        exact hw j ej hj
    · obtain ⟨hok, ct, hfind, he1⟩ := hsucc
      by_cases hij : i = j
      · rw [if_pos hij] at hj
        have hinv := hw i e hfe
        have hnotmem : triad.public_key ∉ e.public_keys := by
          rw [← hinv.1]
          exact (Assoc.find?_eq_none_iff e.identities triad.public_key).mp hfind
        have he2 : ej = { e with identities := e.identities ++ [(triad.public_key, ct)],
                                 public_keys := e.public_keys ++ [triad.public_key] } := by
          rw [he1] at hj
          exact (Option.some.inj hj).symm
        subst he2
        constructor
        · simp [hinv.1]
        · simp [List.nodup_append, hinv.2, hnotmem]
      · rw [if_neg hij] at hj
        exact hw j ej hj

/-- The world-level identify handler appends the submitted key to the
target's `public_keys` exactly when it succeeds, and touches no other
endpoint's `public_keys`. -/
theorem World.identify_keysOf (env : CryptoEnv) (now : Nat) (i : Nat)
    (triad : KeyTriad SignedData) (w : World) (j : Nat) :
    keysOf (World.identify env now i triad w).2 j =
      keysOf w j ++
        (if i = j ∧ identifyOk env now i triad w = true then [triad.public_key] else []) := by
  cases hfe : Assoc.find? w.endpoints i with
  | none =>
    have hok : identifyOk env now i triad w = false := by
      unfold identifyOk World.identify
      rw [hfe]
    rw [World.identify]
    rw [hfe]
    simp [hok]
  | some e =>
    have hq : keysOf (World.identify env now i triad w).2 j =
        keysOf { w with srv := (identifyStep env now w.alive e w.srv triad).2.2,
                        endpoints := Assoc.set w.endpoints i
                                       (identifyStep env now w.alive e w.srv triad).2.1 } j := by
      rw [World.identify]
      rw [hfe]
    rw [hq]
    have hfind : ∀ v, Assoc.find? (Assoc.set w.endpoints i v) j =
        if i = j then some v else Assoc.find? w.endpoints j :=
      fun v => Assoc.find?_set_of_found v hfe j
    have hok1 : (World.identify env now i triad w).1 =
        (identifyStep env now w.alive e w.srv triad).1 := by
      rw [World.identify]
      rw [hfe]
    rcases identifyStep_endpoint env now w.alive e w.srv triad with hfail | hsucc
    · have hok : identifyOk env now i triad w = false := by
        obtain ⟨⟨err, herr⟩, _⟩ := hfail
        unfold identifyOk
        rw [hok1, herr]
      by_cases hij : i = j
      · rw [keysOf]
        simp only [hfind, if_pos hij, hfail.2, hok]
        subst hij
        rw [keysOf, hfe]
        simp
      · rw [keysOf]
        simp only [hfind, if_neg hij, hok]
        rw [keysOf]
        simp [hij]
    · obtain ⟨hok0, ct, hfindid, he1⟩ := hsucc
      have hok : identifyOk env now i triad w = true := by
        unfold identifyOk
        rw [hok1, hok0]
      by_cases hij : i = j
      · rw [keysOf]
        simp only [hfind, if_pos hij, he1, hok]
        subst hij
        rw [keysOf, hfe]
        simp
      · rw [keysOf]
        simp only [hfind, if_neg hij, hok]
        rw [keysOf]
        simp [hij]

/-- Every completed invocation preserves the ledger invariant, and appends
to each endpoint's `public_keys` exactly the key of a successful identify on
that endpoint. -/
theorem stepOp_inv_keysOf (env : CryptoEnv) (w : World) (op : Op) (hw : WorldInv w) :
    WorldInv (stepOp env w op) ∧
      ∀ i, keysOf (stepOp env w op) i = keysOf w i ++ opSuccKey env w i op := by
  cases op with
  | newEndpoint n hasHdl info =>
    cases hins : Assoc.insertNew w.endpoints n (InboundEndpoint.new n hasHdl info) with
    | none =>
      constructor
      · intro j ej hj
        simp only [stepOp, hins] at hj
        exact hw j ej hj
      · intro i
        simp [stepOp, hins, opSuccKey]
    | some es =>
      obtain ⟨hfind, hes⟩ := Assoc.insertNew_eq_some hins
      subst hes
      constructor
      · intro j ej hj
        simp only [stepOp, hins] at hj
        rw [Assoc.find?_append_single] at hj
        cases hfj : Assoc.find? w.endpoints j with
        | some e1 =>
          rw [hfj] at hj
          simp only at hj
          rw [← Option.some.inj hj]
          exact hw j e1 hfj
        | none =>
          rw [hfj] at hj
          simp only at hj
          by_cases hnj : n = j
          · rw [if_pos hnj] at hj
            rw [← Option.some.inj hj]
            simp [InboundEndpoint.new]
          · rw [if_neg hnj] at hj
            cases hj
      · intro i
        simp only [stepOp, hins, opSuccKey, keysOf]
        rw [Assoc.find?_append_single]
        cases hfi : Assoc.find? w.endpoints i with
        | some e1 => simp
        | none =>
          by_cases hni : n = i
          · simp [hni, InboundEndpoint.new]
          · simp [hni]
  | connectServer n =>
    cases hfe : Assoc.find? w.endpoints n with
    | none =>
      exact ⟨fun j ej hj => hw j ej (by simpa [stepOp, hfe] using hj),
        fun i => by simp [stepOp, hfe, opSuccKey, keysOf]⟩
    | some e =>
      cases halive : w.alive with
      | false =>
        exact ⟨fun j ej hj => hw j ej (by simpa [stepOp, hfe, halive] using hj),
          fun i => by simp [stepOp, hfe, halive, opSuccKey, keysOf]⟩
      | true =>
        exact ⟨fun j ej hj => hw j ej (by simpa [stepOp, hfe, halive] using hj),
          fun i => by simp [stepOp, hfe, halive, opSuccKey, keysOf]⟩
  | preIdentify n salt now =>
    cases hfe : Assoc.find? w.endpoints n with
    | none =>
      exact ⟨fun j ej hj => hw j ej (by simpa [stepOp, hfe] using hj),
        fun i => by simp [stepOp, hfe, opSuccKey, keysOf]⟩
    | some e =>
      constructor
      · intro j ej hj
        simp only [stepOp, hfe] at hj
        rw [Assoc.find?_set_of_found _ hfe j] at hj
        by_cases hnj : n = j
        · rw [if_pos hnj] at hj
          rw [← Option.some.inj hj]
          simpa [preIdentifyStep] using hw n e hfe
        · rw [if_neg hnj] at hj
          exact hw j ej hj
      · intro i
        simp only [stepOp, hfe, opSuccKey, keysOf]
        rw [Assoc.find?_set_of_found _ hfe i]
        by_cases hni : n = i
        · rw [if_pos hni]
          subst hni
          rw [hfe]
          simp [preIdentifyStep]
        · rw [if_neg hni]
          simp
  | identify n now triad =>
    constructor
    · exact World.identify_inv env now n triad w hw
    · intro i
      simpa [stepOp, opSuccKey] using World.identify_keysOf env now n triad w i
  | keysExists n req =>
    cases hfe : Assoc.find? w.endpoints n with
    | none =>
      exact ⟨fun j ej hj => hw j ej (by simpa [stepOp, hfe] using hj),
        fun i => by simp [stepOp, hfe, opSuccKey, keysOf]⟩
    | some e =>
      exact ⟨fun j ej hj => hw j ej (by simpa [stepOp, hfe] using hj),
        fun i => by simp [stepOp, hfe, opSuccKey, keysOf]⟩
  | communicate n req =>
    exact ⟨hw, fun i => by simp [stepOp, opSuccKey]⟩
  | listServers n req =>
    exact ⟨hw, fun i => by simp [stepOp, opSuccKey]⟩
  | dropServer =>
    exact ⟨fun j ej hj => hw j ej hj, fun i => by simp [stepOp, opSuccKey, keysOf]⟩

/-- Running a trace preserves the ledger invariant and appends to each
endpoint's `public_keys` exactly its successful identify keys, in order. -/
theorem runOps_inv_keysOf (env : CryptoEnv) :
    ∀ (ops : List Op) (w : World), WorldInv w →
      WorldInv (runOps env w ops) ∧
        ∀ i, keysOf (runOps env w ops) i = keysOf w i ++ succIdentifies env w i ops := by
  intro ops
  induction ops with
  | nil =>
    intro w hw
    exact ⟨hw, fun i => by simp [runOps, succIdentifies]⟩
  | cons op rest ih =>
    intro w hw
    obtain ⟨h1, h2⟩ := stepOp_inv_keysOf env w op hw
    obtain ⟨h3, h4⟩ := ih (stepOp env w op) h1
    refine ⟨h3, fun i => ?_⟩
    rw [runOps, h4 i, h2 i, succIdentifies]
    rw [List.append_assoc]

/-- C5: after any trace of completed handler invocations from the initial
world, every connected endpoint's `public_keys` is duplicate-free, its set
of elements equals the key set of the `identities` map, and it is exactly
the list of keys whose Identify requests succeeded on that endpoint, in the
order they succeeded (a key is appended exactly when its insertion into
`identities` succeeds). -/
theorem public_keys_ledger (env : CryptoEnv) (ops : List Op) (i : Nat)
    (e : InboundEndpoint)
    (h : Assoc.find? (runOps env World.init ops).endpoints i = some e) :
    e.public_keys.Nodup ∧
      (∀ k, k ∈ e.public_keys ↔ k ∈ e.identities.map Prod.fst) ∧
      e.public_keys = succIdentifies env World.init i ops := by
  have hinit : WorldInv World.init := by
    intro j ej hj
    simp [World.init, Assoc.find?] at hj
  obtain ⟨hinv, hkeys⟩ := runOps_inv_keysOf env ops World.init hinit
  obtain ⟨hmap, hnodup⟩ := hinv i e h
  refine ⟨hnodup, fun k => by rw [hmap], ?_⟩
  have hk := hkeys i
  simp only [keysOf] at hk
  rw [h] at hk
  simpa [World.init, Assoc.find?] using hk

/-- Witness for C5 at a concrete trace: endpoint 0 connects, is challenged
and identifies `pk0`; its ledger is the singleton `[pk0]`, coherent with
`identities` and with the trace's one successful identify. -/
theorem public_keys_ledger_witness :
    eIdentified.public_keys.Nodup ∧
      (∀ k, k ∈ eIdentified.public_keys ↔ k ∈ eIdentified.identities.map Prod.fst) ∧
      eIdentified.public_keys = succIdentifies env0 World.init 0 ops0 :=
  public_keys_ledger env0 ops0 0 eIdentified (by decide)

end Cacophoney
